import Mathlib

/-!
Verification development for the infinite-webl-gallery repository
(demo-combined wrap engine, layout calculation, scroll tracking and
prefetch cache manager).

The JavaScript sources are embedded shallowly:
* JS `Map` objects become insertion-ordered association lists
  (`List (Nat × _)`) with `lookupKey` / `setKey` / `eraseKey` mirroring
  `Map.get` / `Map.set` / `Map.delete`;
* pixel and render-space quantities (JS numbers) become rationals;
* asynchronous fetches become an explicit event-step relation whose
  events (`request`, `complete`) correspond to the synchronous prefix of
  `preloadBookCover` and to the resolution of a registered promise.
-/

/-- A cache entry: either a real fetched image (identified by a numeric
payload id) or a synthesized fallback texture (with its random hue), as
distinguished at runtime in the source. -/
inductive Payload where
  | real (id : Nat)
  | fallback (hue : Nat)
deriving DecidableEq, Repr

/-- Lookup in an insertion-ordered association list; mirrors `Map.get` /
`Map.has` of the JS caches. -/
def lookupKey (k : Nat) : List (Nat × α) → Option α
  | [] => none
  | p :: t => if p.1 = k then some p.2 else lookupKey k t

/-- Insert/update in an insertion-ordered association list; mirrors
`Map.set`: an existing key is updated in place, a new key is appended at
the end (JS Maps iterate in insertion order). -/
def setKey (k : Nat) (v : α) : List (Nat × α) → List (Nat × α)
  | [] => [(k, v)]
  | p :: t => if p.1 = k then (k, v) :: t else p :: setKey k v t

/-- Deletion from an insertion-ordered association list; mirrors
`Map.delete` (under the JS Map invariant that keys are unique this
removes the key's single entry). -/
def eraseKey (k : Nat) : List (Nat × α) → List (Nat × α)
  | [] => []
  | p :: t => if p.1 = k then t else p :: eraseKey k t

/-! ## PreloadManager (src/app/demo-combined/managers/PreloadManager.js)

State of one `PreloadManager` instance.  `imageCache` and
`fallbackCache` are the two JS Maps; `preloading` is the
`preloadingPromises` Map, mapping a book index to an identifier of the
pending promise registered for it; `nextId` numbers freshly created
promises.  `started` and `completed` are history variables recording,
respectively, every fetch actually begun (a `loadBookCoverImage` call
reaching the network) and every fetch whose completion has been
processed; they let at-most-one-outstanding-fetch be stated. -/

structure PMState where
  imageCache : List (Nat × Payload)
  fallbackCache : List (Nat × Payload)
  preloading : List (Nat × Nat)
  nextId : Nat
  maxCacheSize : Nat
  started : List Nat
  completed : List Nat
deriving DecidableEq, Repr

/-- The manager constructed by `new PreloadManager()`: empty caches, no
pending promises, `maxCacheSize: 50`. -/
def initPM : PMState :=
  { imageCache := [], fallbackCache := [], preloading := [], nextId := 0,
    maxCacheSize := 50, started := [], completed := [] }

/-- `PreloadManager.getCachedImage`: try the image cache first, then the
fallback cache, else `null`.  A pure read — it takes the state and
returns only an `Option Payload`, producing no new state. -/
def getCachedImage (s : PMState) (k : Nat) : Option Payload :=
  match lookupKey k s.imageCache with
  | some v => some v
  | none => lookupKey k s.fallbackCache

/-- `PreloadManager.isPreloading`: `preloadingPromises.has(bookIndex)`. -/
def isPreloading (s : PMState) (k : Nat) : Bool :=
  (lookupKey k s.preloading).isSome

/-- Outcome of one underlying image fetch: the `onload` event with the
loaded image, the `onerror` event, or the 5000 ms `setTimeout` firing
first. -/
inductive FetchOutcome where
  | success (id : Nat)
  | failure
  | timeout
deriving DecidableEq, Repr

/-- `config.preloadTimeout` (also `API_CONFIG.LOAD_TIMEOUT`). -/
def preloadTimeoutMs : Nat := 5000

/-- `loadImageWithTimeout` (utils/texture.js): resolves with the image on
`onload`, rejects on `onerror`, and rejects when the timeout elapses
before the image loads. -/
def loadImageWithTimeout : FetchOutcome → Except Unit Payload
  | .success id => .ok (.real id)
  | .failure => .error ()
  | .timeout => .error ()

/-- `PreloadManager.loadBookCoverImage`: awaits the fetch; on success the
image is stored in `imageCache`; any rejection is caught, a fallback
texture (`createFallbackTexture`, random hue passed in as `hue`) is
created, stored in `fallbackCache` and returned.  The function never
rethrows, which is why its embedded return type carries no error case. -/
def loadBookCoverImage (s : PMState) (k : Nat) (o : FetchOutcome) (hue : Nat) :
    PMState × Payload :=
  match loadImageWithTimeout o with
  | .ok img => ({ s with imageCache := setKey k img s.imageCache }, img)
  | .error _ =>
      ({ s with fallbackCache := setKey k (Payload.fallback hue) s.fallbackCache },
       Payload.fallback hue)

/-- Value returned by `preloadBookCover`: a cached payload returned
immediately, or (the identifier of) a pending promise. -/
inductive ReqResult where
  | cached (p : Payload)
  | pending (pid : Nat)
deriving DecidableEq, Repr

/-- The synchronous prefix of `PreloadManager.preloadBookCover` (up to
its first `await`): if the index is already cached or already has a
registered promise, return the cached payload or that same promise and
change nothing; otherwise create a fresh promise, register it in
`preloadingPromises`, and begin the underlying fetch (recorded in the
`started` history). -/
def preloadBookCover (s : PMState) (k : Nat) : PMState × ReqResult :=
  match getCachedImage s k with
  | some p => (s, .cached p)
  | none =>
      match lookupKey k s.preloading with
      | some pid => (s, .pending pid)
      | none =>
          ({ s with preloading := (k, s.nextId) :: s.preloading,
                    nextId := s.nextId + 1,
                    started := k :: s.started }, .pending s.nextId)

/-- Resolution of the promise registered for `k`: the body of
`loadBookCoverImage` runs with fetch outcome `o`, then the `finally`
clause of `preloadBookCover` deletes the in-flight registration.  The
`completed` history records the processed completion. -/
def completeFetch (s : PMState) (k : Nat) (o : FetchOutcome) (hue : Nat) :
    PMState × Payload :=
  let r := loadBookCoverImage s k o hue
  ({ r.1 with preloading := eraseKey k r.1.preloading,
              completed := k :: r.1.completed }, r.2)

/-- One observable event of the manager: a `preloadBookCover` call for an
index, or the resolution of a registered promise (a completion event for
an unregistered index corresponds to no promise and changes nothing). -/
inductive PMEvent where
  | request (k : Nat)
  | complete (k : Nat) (o : FetchOutcome) (hue : Nat)
deriving DecidableEq, Repr

/-- Step of the manager's event semantics. -/
def stepEvent (s : PMState) : PMEvent → PMState
  | .request k => (preloadBookCover s k).1
  | .complete k o hue =>
      if (lookupKey k s.preloading).isSome then (completeFetch s k o hue).1 else s

/-- Run the manager from its initial state over a sequence of events. -/
def runPM (evs : List PMEvent) : PMState :=
  evs.foldl stepEvent initPM

/-- Invariant tying the histories to the in-flight table: registered
promise keys are unique, and for every index the number of fetches begun
exceeds the number completed exactly by its in-flight indicator. -/
def PMInv (s : PMState) : Prop :=
  (s.preloading.map Prod.fst).Nodup ∧
  ∀ k : Nat, s.started.count k =
    s.completed.count k + (if (lookupKey k s.preloading).isSome then 1 else 0)

/-- `config.preloadDistance`. -/
def preloadDistance : Nat := 3

/-- The cyclic distance computed inside `cleanupByDistance` for every
cached index:
`Math.min(Math.abs(i - c), Math.abs(i - c + total), Math.abs(i - c - total))`. -/
def cyclicDistance (a b T : ℤ) : ℤ :=
  min (min |a - b| |a - b + T|) |a - b - T|

/-- `PreloadManager.cleanupCache` (primary manager, lines 323–350): when
the combined cache size exceeds `maxCacheSize`, delete the oldest
entries of the image cache first
(`Array.from(map.keys()).slice(0, imagesToRemove)` walks insertion
order), then, if still over the limit, the oldest entries of the
fallback cache. -/
def cleanupCache (s : PMState) : PMState :=
  let totalCached := s.imageCache.length + s.fallbackCache.length
  if totalCached > s.maxCacheSize then
    let imagesToRemove := min s.imageCache.length (totalCached - s.maxCacheSize)
    let imageKeys := (s.imageCache.map Prod.fst).take imagesToRemove
    let imageCacheAfter := imageKeys.foldl (fun c key => eraseKey key c) s.imageCache
    let remainingToRemove := totalCached - imagesToRemove - s.maxCacheSize
    if remainingToRemove > 0 then
      let fallbackKeys := (s.fallbackCache.map Prod.fst).take remainingToRemove
      { s with imageCache := imageCacheAfter,
               fallbackCache := fallbackKeys.foldl (fun c key => eraseKey key c) s.fallbackCache }
    else
      { s with imageCache := imageCacheAfter }
  else s

/-- `cleanupCache` of the second `PreloadManager` variant in the same
source file (lines 709–723): identical trigger and image-cache removal,
but no fallback-cache removal at all. -/
def cleanupCacheAlt (s : PMState) : PMState :=
  let totalCached := s.imageCache.length + s.fallbackCache.length
  if totalCached > s.maxCacheSize then
    let imagesToRemove := min s.imageCache.length (totalCached - s.maxCacheSize)
    let imageKeys := (s.imageCache.map Prod.fst).take imagesToRemove
    { s with imageCache := imageKeys.foldl (fun c key => eraseKey key c) s.imageCache }
  else s

/-! ## Layout (ViewportManager.calculateLayout and App.onResize) -/

structure ScreenDims where
  width : ℚ
  height : ℚ
deriving DecidableEq, Repr

/-- `ELEMENT_CONFIG` from config/constants.js. -/
structure ElementConfig where
  WIDTH : ℚ
  HEIGHT : ℚ
  GAP : ℚ
deriving DecidableEq, Repr

def ELEMENT_CONFIG : ElementConfig := ⟨128, 192, 5⟩

structure Layout where
  columns : ℤ
  rows : ℤ
  total : ℤ
deriving DecidableEq, Repr

/-- `ViewportManager.calculateLayout`: the missing-config guard returns
the zero layout; otherwise
`columns = Math.ceil(screen.width / (WIDTH + GAP)) + 2` (and rows
analogously), plus `total = columns * rows`. -/
def calculateLayout (screen : ScreenDims) : Option ElementConfig → Layout
  | none => ⟨0, 0, 0⟩
  | some cfg =>
      let elementWidth := cfg.WIDTH + cfg.GAP
      let elementHeight := cfg.HEIGHT + cfg.GAP
      let columns := ⌈screen.width / elementWidth⌉ + 2
      let rows := ⌈screen.height / elementHeight⌉ + 2
      ⟨columns, rows, columns * rows⟩

/-- `App.onResize` (the demo-combined orchestrator): the unbuffered
column count of one seamless cycle,
`actualCols = Math.floor((galleryBounds.width + gap) / (elementWidth + gap))`
with `elementWidth = 128`, `gap = 5`. -/
def actualCols (galleryBoundsWidth : ℚ) : ℤ :=
  ⌊(galleryBoundsWidth + 5) / (128 + 5)⌋

/-- `App.onResize`: `actualRows = Math.floor((bounds.height + gap) / (192 + gap))`. -/
def actualRows (galleryBoundsHeight : ℚ) : ℤ :=
  ⌊(galleryBoundsHeight + 5) / (192 + 5)⌋

/-- `App.onResize`: the pixel-space grid period
`fullGridWidth = actualCols * (elementWidth + gap)`. -/
def fullGridWidth (galleryBoundsWidth : ℚ) : ℚ :=
  (actualCols galleryBoundsWidth : ℚ) * (128 + 5)

/-- `App.onResize`: `fullGridHeight = actualRows * (elementHeight + gap)`. -/
def fullGridHeight (galleryBoundsHeight : ℚ) : ℚ :=
  (actualRows galleryBoundsHeight : ℚ) * (192 + 5)

/-! ## Wrap engine (Media.js, components/MediaPosition.js, and the Media
variant embedded in the PreloadManager.js source file) -/

inductive DirX where
  | left
  | right
deriving DecidableEq, Repr

inductive DirY where
  | up
  | down
deriving DecidableEq, Repr

/-- Scroll direction per axis, `{x: 'left'|'right', y: 'up'|'down'}`. -/
structure Direction where
  x : DirX
  y : DirY
deriving DecidableEq, Repr

structure Vec2 where
  x : ℚ
  y : ℚ
deriving DecidableEq, Repr

/-- A tile's accumulated wrap offset `this.extra`. -/
structure Extra where
  x : ℚ
  y : ℚ
deriving DecidableEq, Repr

/-- The per-tile constants captured from the collaborators: DOM bounds,
screen and WebGL viewport dimensions, and the gallery (grid period)
dimensions in render units. -/
structure MediaParams where
  boundsLeft : ℚ
  boundsTop : ℚ
  screenWidth : ℚ
  screenHeight : ℚ
  viewportWidth : ℚ
  viewportHeight : ℚ
  galleryWidth : ℚ
  galleryHeight : ℚ
deriving DecidableEq, Repr

/-- `Media.updateScale` (demo-combined/Media.js and
`MediaPosition.updateScale` via `pixelsToViewport`):
`scale.x = (128 / screen.width) * viewport.width`. -/
def scaleX (p : MediaParams) : ℚ := 128 / p.screenWidth * p.viewportWidth

/-- `scale.y = (192 / screen.height) * viewport.height`. -/
def scaleY (p : MediaParams) : ℚ := 192 / p.screenHeight * p.viewportHeight

/-- `updateScale` of the Media variant found in the PreloadManager.js
source file: `targetHeight = (192 / screen.height) * viewport.height`,
`targetWidth = targetHeight * (128 / 192)`. -/
def scaleYAlt (p : MediaParams) : ℚ := 192 / p.screenHeight * p.viewportHeight

def scaleXAlt (p : MediaParams) : ℚ := scaleYAlt p * (128 / 192)

/-- `updateX` (identical in all Media variants): the tile's render-space
X from its DOM bounds, the eased scroll and the wrap offset.  `sx` is
the mesh scale on this axis. -/
def positionX (p : MediaParams) (sx extraX scrollX : ℚ) : ℚ :=
  (-(p.viewportWidth / 2) + sx / 2 +
    ((p.boundsLeft - scrollX) / p.screenWidth) * p.viewportWidth) - extraX

/-- `updateY` (identical in all Media variants; WebGL Y is inverted). -/
def positionY (p : MediaParams) (sy extraY scrollY : ℚ) : ℚ :=
  ((p.viewportHeight / 2) - sy / 2 -
    ((p.boundsTop - scrollY) / p.screenHeight) * p.viewportHeight) - extraY

/-- The wrap portion of `Media.update` (demo-combined/Media.js, lines
150–196): boundary flags with a buffer of one full tile size, then two
sequential `if`s per axis that apply at most one grid-period translation
and clear both flags.  Only `extra` is produced: the mesh position is
recomputed from it on the next frame, and the hover/uniform updates in
the source do not touch `extra`. -/
def mediaUpdate (p : MediaParams) (extra : Extra) (scroll : Vec2)
    (direction : Direction) : Extra :=
  let px := positionX p (scaleX p) extra.x scroll.x
  let py := positionY p (scaleY p) extra.y scroll.y
  let planeOffsetX := scaleX p / 2
  let planeOffsetY := scaleY p / 2
  let viewportOffsetX := p.viewportWidth / 2
  let viewportOffsetY := p.viewportHeight / 2
  let bufferX := scaleX p
  let bufferY := scaleY p
  let isBeforeX : Bool := decide (px + planeOffsetX < -viewportOffsetX + bufferX)
  let isAfterX : Bool := decide (px - planeOffsetX > viewportOffsetX - bufferX)
  let isBeforeY : Bool := decide (py + planeOffsetY < -viewportOffsetY + bufferY)
  let isAfterY : Bool := decide (py - planeOffsetY > viewportOffsetY - bufferY)
  let stepX : ℚ × Bool × Bool :=
    if direction.x = DirX.right ∧ isBeforeX then
      (extra.x - p.galleryWidth, false, false)
    else (extra.x, isBeforeX, isAfterX)
  let ex : ℚ :=
    if direction.x = DirX.left ∧ stepX.2.2 then stepX.1 + p.galleryWidth else stepX.1
  let stepY : ℚ × Bool × Bool :=
    if direction.y = DirY.up ∧ isBeforeY then
      (extra.y - p.galleryHeight, false, false)
    else (extra.y, isBeforeY, isAfterY)
  let ey : ℚ :=
    if direction.y = DirY.down ∧ stepY.2.2 then stepY.1 + p.galleryHeight else stepY.1
  ⟨ex, ey⟩

/-- The wrap portion of `update` in the Media variant embedded in the
PreloadManager.js source file (lines 1156–1202): same directional rule,
but the boundary flags carry no buffer, and the scale comes from that
variant's `updateScale`. -/
def mediaUpdateAlt (p : MediaParams) (extra : Extra) (scroll : Vec2)
    (direction : Direction) : Extra :=
  let px := positionX p (scaleXAlt p) extra.x scroll.x
  let py := positionY p (scaleYAlt p) extra.y scroll.y
  let planeOffsetX := scaleXAlt p / 2
  let planeOffsetY := scaleYAlt p / 2
  let viewportOffsetX := p.viewportWidth / 2
  let viewportOffsetY := p.viewportHeight / 2
  let isBeforeX : Bool := decide (px + planeOffsetX < -viewportOffsetX)
  let isAfterX : Bool := decide (px - planeOffsetX > viewportOffsetX)
  let isBeforeY : Bool := decide (py + planeOffsetY < -viewportOffsetY)
  let isAfterY : Bool := decide (py - planeOffsetY > viewportOffsetY)
  let stepX : ℚ × Bool × Bool :=
    if direction.x = DirX.right ∧ isBeforeX then
      (extra.x - p.galleryWidth, false, false)
    else (extra.x, isBeforeX, isAfterX)
  let ex : ℚ :=
    if direction.x = DirX.left ∧ stepX.2.2 then stepX.1 + p.galleryWidth else stepX.1
  let stepY : ℚ × Bool × Bool :=
    if direction.y = DirY.up ∧ isBeforeY then
      (extra.y - p.galleryHeight, false, false)
    else (extra.y, isBeforeY, isAfterY)
  let ey : ℚ :=
    if direction.y = DirY.down ∧ stepY.2.2 then stepY.1 + p.galleryHeight else stepY.1
  ⟨ex, ey⟩

/-- `MediaPosition.handleWrapping` (components/MediaPosition.js, lines
89–128): same flags and buffer as `Media.update`, with `else if` chains
instead of sequential `if`s. -/
def handleWrapping (p : MediaParams) (extra : Extra) (px py : ℚ)
    (direction : Direction) : Extra :=
  let planeOffsetX := scaleX p / 2
  let planeOffsetY := scaleY p / 2
  let viewportOffsetX := p.viewportWidth / 2
  let viewportOffsetY := p.viewportHeight / 2
  let bufferX := scaleX p
  let bufferY := scaleY p
  let isBeforeX : Bool := decide (px + planeOffsetX < -viewportOffsetX + bufferX)
  let isAfterX : Bool := decide (px - planeOffsetX > viewportOffsetX - bufferX)
  let isBeforeY : Bool := decide (py + planeOffsetY < -viewportOffsetY + bufferY)
  let isAfterY : Bool := decide (py - planeOffsetY > viewportOffsetY - bufferY)
  let ex : ℚ :=
    if direction.x = DirX.right ∧ isBeforeX then extra.x - p.galleryWidth
    else if direction.x = DirX.left ∧ isAfterX then extra.x + p.galleryWidth
    else extra.x
  let ey : ℚ :=
    if direction.y = DirY.up ∧ isBeforeY then extra.y - p.galleryHeight
    else if direction.y = DirY.down ∧ isAfterY then extra.y + p.galleryHeight
    else extra.y
  ⟨ex, ey⟩

/-- `MediaPosition.update`: recompute scale and position, then
`handleWrapping`. -/
def mediaPositionUpdate (p : MediaParams) (extra : Extra) (scroll : Vec2)
    (direction : Direction) : Extra :=
  handleWrapping p extra
    (positionX p (scaleX p) extra.x scroll.x)
    (positionY p (scaleY p) extra.y scroll.y) direction

/-- A sequence of per-frame `Media.update` calls starting from a freshly
constructed (or freshly resized) tile, whose `extra` is `(0, 0)`. -/
def runMediaUpdates (p : MediaParams) (ticks : List (Vec2 × Direction)) : Extra :=
  ticks.foldl (fun e t => mediaUpdate p e t.1 t.2) ⟨0, 0⟩

/-- `Media.onResize` / `MediaPosition.updateDimensions`: a layout change
installs the new dimensions and resets `extra` to `(0, 0)` (bounds
recapture touches only the cached DOM rectangle). -/
def updateMediaDimensions (p : MediaParams) (screen viewport : Vec2)
    (galleryWidth galleryHeight : ℚ) : MediaParams × Extra :=
  ({ p with screenWidth := screen.x, screenHeight := screen.y,
            viewportWidth := viewport.x, viewportHeight := viewport.y,
            galleryWidth := galleryWidth, galleryHeight := galleryHeight },
   ⟨0, 0⟩)

/-- The X-axis wrap rule exactly as the specification words it: with
`isBefore = position + halfSize < -viewportHalf + buffer` and
`isAfter = position - halfSize > viewportHalf - buffer`, motion toward
increasing X with `isBefore` subtracts one grid period, motion toward
decreasing X with `isAfter` adds one, and `extra` is unchanged
otherwise. -/
def specWrapX (d : DirX) (position halfSize viewportHalf buffer gridPeriod extraX : ℚ) : ℚ :=
  let isBefore := position + halfSize < -viewportHalf + buffer
  let isAfter := position - halfSize > viewportHalf - buffer
  if d = DirX.right ∧ isBefore then extraX - gridPeriod
  else if d = DirX.left ∧ isAfter then extraX + gridPeriod
  else extraX

/-- The Y-axis wrap rule with the Y direction convention of the source
(WebGL Y is inverted): increasing scroll Y is `down`, and `up` with
`isBefore` subtracts, `down` with `isAfter` adds. -/
def specWrapY (d : DirY) (position halfSize viewportHalf buffer gridPeriod extraY : ℚ) : ℚ :=
  let isBefore := position + halfSize < -viewportHalf + buffer
  let isAfter := position - halfSize > viewportHalf - buffer
  if d = DirY.up ∧ isBefore then extraY - gridPeriod
  else if d = DirY.down ∧ isAfter then extraY + gridPeriod
  else extraY

/-! ## ScrollManager (managers/ScrollManager.js) -/

/-- `lerp` from utils/math.js. -/
def lerp (start finish factor : ℚ) : ℚ := start + (finish - start) * factor

/-- `ANIMATION_CONFIG.SCROLL_EASE = 0.05`. -/
def SCROLL_EASE : ℚ := 1 / 20

structure ScrollState where
  ease : ℚ
  current : Vec2
  target : Vec2
  last : Vec2
  direction : Direction
  isScrolling : Bool
deriving DecidableEq, Repr

/-- The state built by the `ScrollManager` constructor. -/
def initScroll : ScrollState :=
  { ease := SCROLL_EASE, current := ⟨0, 0⟩, target := ⟨0, 0⟩, last := ⟨0, 0⟩,
    direction := ⟨DirX.right, DirY.down⟩, isScrolling := false }

/-- `ScrollManager.update`: store `last`, ease `current` toward `target`,
derive the direction by strict comparison, and raise `isScrolling` while
displacement from the target exceeds 0.1.  The 100 ms `setTimeout` that
later clears `isScrolling` is wall-clock driven and not part of this
step. -/
def scrollUpdate (s : ScrollState) : ScrollState :=
  let lastX := s.current.x
  let lastY := s.current.y
  let curX := lerp s.current.x s.target.x s.ease
  let curY := lerp s.current.y s.target.y s.ease
  let dirX := if curX > lastX then DirX.right else DirX.left
  let dirY := if curY > lastY then DirY.down else DirY.up
  let isMoving : Bool := decide (|curX - s.target.x| > 1/10 ∨ |curY - s.target.y| > 1/10)
  { s with current := ⟨curX, curY⟩, last := ⟨lastX, lastY⟩,
           direction := ⟨dirX, dirY⟩,
           isScrolling := if isMoving then true else s.isScrolling }

/-- `ScrollManager.addScroll`: external stimuli mutate only `target`. -/
def addScroll (s : ScrollState) (deltaX deltaY : ℚ) : ScrollState :=
  { s with target := ⟨s.target.x + deltaX, s.target.y + deltaY⟩ }

/-! ## Concrete states used to instantiate theorems -/

/-- A manager state with one registered promise (id 5) for index 0. -/
def pmOnePending : PMState := { initPM with preloading := [(0, 5)] }

/-- A manager state holding index 3 in both caches. -/
def pmBothCaches : PMState :=
  { initPM with imageCache := [(3, Payload.real 1)],
                fallbackCache := [(3, Payload.fallback 2)] }

/-- A manager whose fallback cache alone exceeds its capacity of 2. -/
def pmOverCap : PMState :=
  { initPM with maxCacheSize := 2,
                fallbackCache := [(0, Payload.fallback 0), (1, Payload.fallback 1),
                                  (2, Payload.fallback 2)] }

/-- A scroll state resting exactly on its target (a tick with no
movement on either axis) while the stored direction is `right`/`down`. -/
def tieScroll : ScrollState :=
  { ease := SCROLL_EASE, current := ⟨5, 5⟩, target := ⟨5, 5⟩, last := ⟨0, 0⟩,
    direction := ⟨DirX.right, DirY.down⟩, isScrolling := false }

/-- Tile parameters on which the buffered and unbuffered boundary tests
disagree: with a 1000-wide viewport and a 128-wide tile, the tile sits
at render X −500, inside the one-tile buffer zone but not yet past the
raw viewport edge. -/
def altParams : MediaParams :=
  { boundsLeft := -64, boundsTop := 0, screenWidth := 1000, screenHeight := 192,
    viewportWidth := 1000, viewportHeight := 192,
    galleryWidth := 931, galleryHeight := 931 }

/-! ## Association-list lemmas -/

theorem lookupKey_setKey_self (k : Nat) (v : α) (l : List (Nat × α)) :
    lookupKey k (setKey k v l) = some v := by
  induction l with
  | nil => simp [setKey, lookupKey]
  | cons p t ih =>
    by_cases h : p.1 = k
    · simp [setKey, lookupKey, h]
    · simp [setKey, lookupKey, h, ih]

theorem lookupKey_setKey_ne (k j : Nat) (hjk : j ≠ k) (v : α) (l : List (Nat × α)) :
    lookupKey j (setKey k v l) = lookupKey j l := by
  induction l with
  | nil => simp [setKey, lookupKey, Ne.symm hjk]
  | cons p t ih =>
    by_cases h : p.1 = k
    · simp [setKey, lookupKey, h, Ne.symm hjk]
    · simp [setKey, lookupKey, h, ih]

theorem lookupKey_none_iff (k : Nat) (l : List (Nat × α)) :
    lookupKey k l = none ↔ k ∉ l.map Prod.fst := by
  induction l with
  | nil => simp [lookupKey]
  | cons p t ih =>
    by_cases h : p.1 = k
    · simp [lookupKey, h]
    · simp only [lookupKey, if_neg h, List.map_cons, List.mem_cons, not_or, ih]
      simp [Ne.symm h]

theorem eraseKey_sublist (k : Nat) (l : List (Nat × α)) :
    List.Sublist (eraseKey k l) l := by
  induction l with
  | nil => simp [eraseKey]
  | cons p t ih =>
    by_cases h : p.1 = k
    · rw [eraseKey, if_pos h]
      exact List.sublist_cons_self p t
    · simpa [eraseKey, h] using List.Sublist.cons₂ p ih

theorem nodup_keys_eraseKey (k : Nat) (l : List (Nat × α))
    (h : (l.map Prod.fst).Nodup) : ((eraseKey k l).map Prod.fst).Nodup :=
  List.Nodup.sublist (List.Sublist.map Prod.fst (eraseKey_sublist k l)) h

theorem lookupKey_eraseKey_self (k : Nat) (l : List (Nat × α))
    (h : (l.map Prod.fst).Nodup) : lookupKey k (eraseKey k l) = none := by
  induction l with
  | nil => simp [eraseKey, lookupKey]
  | cons p t ih =>
    by_cases hk : p.1 = k
    · subst hk
      rw [lookupKey_none_iff]
      simp only [List.map_cons, List.nodup_cons] at h
      simpa [eraseKey] using h.1
    · simp only [List.map_cons, List.nodup_cons] at h
      simp [eraseKey, lookupKey, hk, ih h.2]

theorem lookupKey_eraseKey_ne (k j : Nat) (hjk : j ≠ k) (l : List (Nat × α)) :
    lookupKey j (eraseKey k l) = lookupKey j l := by
  induction l with
  | nil => simp [eraseKey]
  | cons p t ih =>
    by_cases hk : p.1 = k
    · have hpj : ¬p.1 = j := fun hj => hjk (hj.symm.trans hk)
      simp [eraseKey, hk, lookupKey, hpj, Ne.symm hjk]
    · simp [eraseKey, hk, lookupKey, ih]

/-- Deleting, one after another, the first `n` keys of an association
list removes exactly its `n` oldest entries (the way
`Array.from(map.keys()).slice(0, n)` followed by `map.delete(key)` does
in the source's cache cleanup). -/
theorem foldl_eraseKey_take (l : List (Nat × α)) (n : Nat) :
    ((l.map Prod.fst).take n).foldl (fun c key => eraseKey key c) l = l.drop n := by
  induction l generalizing n with
  | nil => cases n <;> simp
  | cons p t ih =>
    cases n with
    | zero => simp
    | succ m =>
      have hp : eraseKey p.1 (p :: t) = t := by simp [eraseKey]
      simp only [List.map_cons, List.take_succ_cons, List.foldl_cons, hp, List.drop_succ_cons]
      exact ih m

/-! ## PreloadManager invariant -/

theorem loadBookCoverImage_preloading (s : PMState) (k : Nat) (o : FetchOutcome)
    (hue : Nat) : (loadBookCoverImage s k o hue).1.preloading = s.preloading := by
  cases o <;> rfl

theorem loadBookCoverImage_started (s : PMState) (k : Nat) (o : FetchOutcome)
    (hue : Nat) : (loadBookCoverImage s k o hue).1.started = s.started := by
  cases o <;> rfl

theorem loadBookCoverImage_completed (s : PMState) (k : Nat) (o : FetchOutcome)
    (hue : Nat) : (loadBookCoverImage s k o hue).1.completed = s.completed := by
  cases o <;> rfl

theorem pminv_init : PMInv initPM := by
  constructor
  · simp [initPM]
  · intro k
    simp [initPM, lookupKey]

theorem pminv_step (s : PMState) (e : PMEvent) (h : PMInv s) : PMInv (stepEvent s e) := by
  obtain ⟨hnd, hcount⟩ := h
  cases e with
  | request k =>
    show PMInv (preloadBookCover s k).1
    cases hc : getCachedImage s k with
    | some p =>
      simp only [preloadBookCover, hc]
      exact ⟨hnd, hcount⟩
    | none =>
      cases hp : lookupKey k s.preloading with
      | some pid =>
        simp only [preloadBookCover, hc, hp]
        exact ⟨hnd, hcount⟩
      | none =>
        simp only [preloadBookCover, hc, hp]
        refine ⟨?_, ?_⟩
        · simp only [List.map_cons, List.nodup_cons]
          exact ⟨(lookupKey_none_iff k s.preloading).1 hp, hnd⟩
        · intro j
          by_cases hj : j = k
          · subst hj
            have hc0 := hcount j
            rw [hp] at hc0
            simp only [Option.isSome_none, Bool.false_eq_true, if_false, Nat.add_zero] at hc0
            simp [lookupKey, List.count_cons_self, hc0]
          · have hne : ¬(k = j) := fun hh => hj hh.symm
            simp [lookupKey, hne, List.count_cons_of_ne hj, hcount j]
  | complete k o hue =>
    by_cases hg : (lookupKey k s.preloading).isSome
    · simp only [stepEvent, if_pos hg]
      have hpre := loadBookCoverImage_preloading s k o hue
      have hst := loadBookCoverImage_started s k o hue
      have hcm := loadBookCoverImage_completed s k o hue
      refine ⟨?_, ?_⟩
      · simp only [completeFetch, hpre]
        exact nodup_keys_eraseKey k s.preloading hnd
      · intro j
        simp only [completeFetch, hpre, hst, hcm]
        by_cases hj : j = k
        · subst hj
          rw [lookupKey_eraseKey_self j s.preloading hnd]
          have hc0 := hcount j
          rw [if_pos hg] at hc0
          simp [List.count_cons_self, hc0]
        · rw [lookupKey_eraseKey_ne k j hj s.preloading]
          simp [List.count_cons_of_ne hj, hcount j]
    · simp only [stepEvent, if_neg hg]
      exact ⟨hnd, hcount⟩

theorem pminv_foldl (evs : List PMEvent) (s : PMState) (h : PMInv s) :
    PMInv (evs.foldl stepEvent s) := by
  induction evs generalizing s with
  | nil => exact h
  | cons e t ih => exact ih (stepEvent s e) (pminv_step s e h)

theorem pminv_run (evs : List PMEvent) : PMInv (runPM evs) :=
  pminv_foldl evs initPM pminv_init

/-! ## Claim theorems: prefetch cache manager -/

/-- C2: for every key at most one underlying fetch is outstanding at any
time: along every event trace the number of fetches begun for `k`
exceeds the completions processed for `k` exactly by its in-flight
indicator (hence by at most one); a `preloadBookCover` call for a key
with a registered promise returns that same pending promise and starts
no new fetch; a call for a cached key starts no fetch either; and two
consecutive calls for an uncached, unregistered key start exactly one
underlying fetch. -/
theorem c2_single_flight (evs : List PMEvent) (k : Nat) :
    ((runPM evs).started.count k =
      (runPM evs).completed.count k +
        (if (lookupKey k (runPM evs).preloading).isSome then 1 else 0)) ∧
    (∀ (s : PMState) (pid : Nat), getCachedImage s k = none →
      lookupKey k s.preloading = some pid →
      preloadBookCover s k = (s, ReqResult.pending pid)) ∧
    (∀ (s : PMState) (p : Payload), getCachedImage s k = some p →
      preloadBookCover s k = (s, ReqResult.cached p)) ∧
    (∀ s : PMState, getCachedImage s k = none → lookupKey k s.preloading = none →
      (preloadBookCover (preloadBookCover s k).1 k).1.started.count k =
        s.started.count k + 1) := by
  refine ⟨(pminv_run evs).2 k, ?_, ?_, ?_⟩
  · intro s pid hc hp
    simp [preloadBookCover, hc, hp]
  · intro s p hc
    simp [preloadBookCover, hc]
  · intro s hc hp
    have h1 : (preloadBookCover s k).1 =
        { s with preloading := (k, s.nextId) :: s.preloading,
                 nextId := s.nextId + 1,
                 started := k :: s.started } := by
      simp [preloadBookCover, hc, hp]
    rw [h1]
    have hc2 : getCachedImage
        { s with preloading := (k, s.nextId) :: s.preloading,
                 nextId := s.nextId + 1,
                 started := k :: s.started } k = none := hc
    have hp2 : lookupKey k ((k, s.nextId) :: s.preloading) = some s.nextId := by
      simp [lookupKey]
    simp [preloadBookCover, hc2, hp2, List.count_cons_self]

theorem c2_single_flight_witness :
    preloadBookCover pmOnePending 0 = (pmOnePending, ReqResult.pending 5) ∧
    (preloadBookCover (preloadBookCover initPM 0).1 0).1.started.count 0 =
      initPM.started.count 0 + 1 :=
  ⟨(c2_single_flight [] 0).2.1 pmOnePending 5 rfl rfl,
   (c2_single_flight [] 0).2.2.2 initPM rfl rfl⟩

/-- C4: a fetch that errors or exceeds its 5000 ms timeout resolves to a
fallback-tagged payload, caches that payload under the key in the
fallback cache exactly like a success (the image cache is untouched),
removes the key's in-flight registration, and returns normally to the
caller (the completion's return type has no error case because
`loadBookCoverImage` catches every rejection). -/
theorem c4_failure_fallback (s : PMState) (k hue : Nat) (o : FetchOutcome)
    (ho : o = FetchOutcome.failure ∨ o = FetchOutcome.timeout)
    (hnd : (s.preloading.map Prod.fst).Nodup) :
    (completeFetch s k o hue).2 = Payload.fallback hue ∧
    lookupKey k (completeFetch s k o hue).1.fallbackCache =
      some (Payload.fallback hue) ∧
    lookupKey k (completeFetch s k o hue).1.preloading = none ∧
    (completeFetch s k o hue).1.imageCache = s.imageCache ∧
    preloadTimeoutMs = 5000 := by
  rcases ho with h | h <;> subst h <;>
    exact ⟨rfl,
      by simp [completeFetch, loadBookCoverImage, loadImageWithTimeout,
               lookupKey_setKey_self],
      by simpa [completeFetch, loadBookCoverImage, loadImageWithTimeout]
           using lookupKey_eraseKey_self k s.preloading hnd,
      rfl, rfl⟩

theorem c4_failure_fallback_witness :
    (completeFetch pmOnePending 0 FetchOutcome.timeout 7).2 = Payload.fallback 7 ∧
    lookupKey 0 (completeFetch pmOnePending 0 FetchOutcome.timeout 7).1.fallbackCache =
      some (Payload.fallback 7) ∧
    lookupKey 0 (completeFetch pmOnePending 0 FetchOutcome.timeout 7).1.preloading = none ∧
    (completeFetch pmOnePending 0 FetchOutcome.timeout 7).1.imageCache =
      pmOnePending.imageCache ∧
    preloadTimeoutMs = 5000 :=
  c4_failure_fallback pmOnePending 0 7 FetchOutcome.timeout (Or.inr rfl) (by decide)

/-- C10: `getCachedImage` gives the image cache precedence: a key present
in both caches yields the real image (a cached fallback never shadows
it), and a key in neither cache yields `null`; the read is effect-free,
being a plain function of the state that returns no modified state. -/
theorem c10_cache_precedence (s : PMState) (k : Nat) (v w : Payload) :
    (lookupKey k s.imageCache = some v → lookupKey k s.fallbackCache = some w →
      getCachedImage s k = some v) ∧
    (lookupKey k s.imageCache = none → lookupKey k s.fallbackCache = none →
      getCachedImage s k = none) := by
  constructor
  · intro h1 _
    simp [getCachedImage, h1]
  · intro h1 h2
    simp [getCachedImage, h1, h2]

theorem c10_cache_precedence_witness :
    getCachedImage pmBothCaches 3 = some (Payload.real 1) ∧
    getCachedImage initPM 5 = none :=
  ⟨(c10_cache_precedence pmBothCaches 3 (Payload.real 1) (Payload.fallback 2)).1 rfl rfl,
   (c10_cache_precedence initPM 5 (Payload.real 1) (Payload.real 1)).2 rfl rfl⟩

/-! ## Claim theorems: eviction, layout, cyclic distance -/

theorem cleanupCache_eq (s : PMState) :
    cleanupCache s =
      if s.imageCache.length + s.fallbackCache.length > s.maxCacheSize then
        if s.imageCache.length + s.fallbackCache.length -
            min s.imageCache.length
              (s.imageCache.length + s.fallbackCache.length - s.maxCacheSize) -
            s.maxCacheSize > 0 then
          { s with
              imageCache := s.imageCache.drop
                (min s.imageCache.length
                  (s.imageCache.length + s.fallbackCache.length - s.maxCacheSize)),
              fallbackCache := s.fallbackCache.drop
                (s.imageCache.length + s.fallbackCache.length -
                  min s.imageCache.length
                    (s.imageCache.length + s.fallbackCache.length - s.maxCacheSize) -
                  s.maxCacheSize) }
        else
          { s with
              imageCache := s.imageCache.drop
                (min s.imageCache.length
                  (s.imageCache.length + s.fallbackCache.length - s.maxCacheSize)) }
      else s := by
  simp only [cleanupCache, foldl_eraseKey_take]

theorem cleanupCacheAlt_eq (s : PMState) :
    cleanupCacheAlt s =
      if s.imageCache.length + s.fallbackCache.length > s.maxCacheSize then
        { s with
            imageCache := s.imageCache.drop
              (min s.imageCache.length
                (s.imageCache.length + s.fallbackCache.length - s.maxCacheSize)) }
      else s := by
  simp only [cleanupCacheAlt, foldl_eraseKey_take]

/-- C5 counterexample: `cleanupCache` of the second `PreloadManager`
variant, run on a manager whose fallback cache alone exceeds its
capacity, leaves the total cache size strictly above `maxCacheSize`. -/
theorem c5_capacity_counterexample :
    (cleanupCacheAlt pmOverCap).imageCache.length +
      (cleanupCacheAlt pmOverCap).fallbackCache.length > pmOverCap.maxCacheSize ∧
    (cleanupCacheAlt pmOverCap).maxCacheSize = pmOverCap.maxCacheSize := by
  decide

/-- C5 (amended): after the primary `cleanupCache` the total number of
cache entries is at most `maxCacheSize`, and the removed entries are the
oldest-inserted ones in insertion order, image cache first and the
fallback cache only once the image cache's share is exhausted; the
second variant's `cleanupCache` also removes oldest-first from the image
cache but never touches the fallback cache, so its total can remain
above the cap. -/
theorem c5_capacity_amended (s : PMState) :
    ((cleanupCache s).imageCache.length + (cleanupCache s).fallbackCache.length ≤
      s.maxCacheSize) ∧
    (∃ n m : Nat, (cleanupCache s).imageCache = s.imageCache.drop n ∧
      (cleanupCache s).fallbackCache = s.fallbackCache.drop m ∧
      (m = 0 ∨ n = s.imageCache.length)) ∧
    ((cleanupCacheAlt s).fallbackCache = s.fallbackCache ∧
      ∃ n : Nat, (cleanupCacheAlt s).imageCache = s.imageCache.drop n) := by
  refine ⟨?_, ?_, ?_⟩
  · rw [cleanupCache_eq]
    split_ifs with h h2
    · simp only [List.length_drop]
      omega
    · simp only [List.length_drop]
      omega
    · omega
  · rw [cleanupCache_eq]
    split_ifs with h h2
    · exact ⟨_, _, rfl, rfl, Or.inr (by omega)⟩
    · exact ⟨_, 0, rfl, (s.fallbackCache.drop_zero).symm, Or.inl rfl⟩
    · exact ⟨0, 0, (s.imageCache.drop_zero).symm, (s.fallbackCache.drop_zero).symm,
        Or.inl rfl⟩
  · rw [cleanupCacheAlt_eq]
    split_ifs with h
    · exact ⟨rfl, _, rfl⟩
    · exact ⟨rfl, 0, (s.imageCache.drop_zero).symm⟩

/-- C6: `calculateLayout` returns
`columns = ceil(screenWidth / (tileWidth + gap)) + 2` and the analogous
row count; the unbuffered base count and the grid period live in
`App.onResize`, where `actualCols = floor((width + gap) / (tileWidth + gap))`
and the pixel grid period is `actualCols * (tileWidth + gap)`; for the
1000×1000 scenario with 128×192 tiles and gap 5 this gives base columns
`floor(1005 / 133) = 7` and grid period `7 * 133 = 931`. -/
theorem c6_layout_formulas :
    (∀ (screen : ScreenDims) (cfg : ElementConfig),
      (calculateLayout screen (some cfg)).columns =
        ⌈screen.width / (cfg.WIDTH + cfg.GAP)⌉ + 2 ∧
      (calculateLayout screen (some cfg)).rows =
        ⌈screen.height / (cfg.HEIGHT + cfg.GAP)⌉ + 2) ∧
    (∀ w : ℚ, fullGridWidth w = (actualCols w : ℚ) * (128 + 5)) ∧
    actualCols 1000 = ⌊(1000 + 5 : ℚ) / 133⌋ ∧
    actualCols 1000 = 7 ∧
    fullGridWidth 1000 = 931 ∧
    (calculateLayout ⟨1000, 1000⟩ (some ELEMENT_CONFIG)).columns = 10 :=
  ⟨fun _ _ => ⟨rfl, rfl⟩, fun _ => rfl,
   by norm_num [actualCols],
   by norm_num [actualCols],
   by norm_num [fullGridWidth, actualCols],
   by
    have h : (⌈(1000 : ℚ) / 133⌉ : ℤ) = 8 := by
      rw [Int.ceil_eq_iff]
      norm_num
    norm_num [calculateLayout, ELEMENT_CONFIG, h]⟩

/-- C8 counterexample: on a 0×0 screen `calculateLayout` does not return
zero columns and zero rows — the `+2` buffer makes both counts 2. -/
theorem c8_zero_screen_counterexample :
    (calculateLayout ⟨0, 0⟩ (some ELEMENT_CONFIG)).columns = 2 ∧
    (calculateLayout ⟨0, 0⟩ (some ELEMENT_CONFIG)).rows = 2 ∧
    ¬((calculateLayout ⟨0, 0⟩ (some ELEMENT_CONFIG)).columns = 0 ∧
      (calculateLayout ⟨0, 0⟩ (some ELEMENT_CONFIG)).rows = 0) := by
  norm_num [calculateLayout, ELEMENT_CONFIG]

/-- C8 (amended): a zero-size screen yields the buffer-only layout
`columns = rows = 2`, `total = 4`, with no division by zero since the
divisors are the tile pitches `128 + 5` and `192 + 5`; the zero layout
is produced only by the missing-element-config guard. -/
theorem c8_zero_screen_amended :
    calculateLayout ⟨0, 0⟩ (some ELEMENT_CONFIG) = ⟨2, 2, 4⟩ ∧
    (∀ screen : ScreenDims, calculateLayout screen none = ⟨0, 0, 0⟩) ∧
    ELEMENT_CONFIG.WIDTH + ELEMENT_CONFIG.GAP ≠ 0 ∧
    ELEMENT_CONFIG.HEIGHT + ELEMENT_CONFIG.GAP ≠ 0 :=
  ⟨by norm_num [calculateLayout, ELEMENT_CONFIG, Layout.mk.injEq], fun _ => rfl,
   by norm_num [ELEMENT_CONFIG], by norm_num [ELEMENT_CONFIG]⟩

/-- C9: the cyclic distance of `cleanupByDistance` is symmetric, zero on
the diagonal, nonnegative, and at most `T / 2` (stated integrally as
`2 * d ≤ T`) for indices in `[0, T)`. -/
theorem c9_cyclic_distance (a b T : ℤ) (hT : 0 < T) (ha0 : 0 ≤ a) (haT : a < T)
    (hb0 : 0 ≤ b) (hbT : b < T) :
    cyclicDistance a b T = cyclicDistance b a T ∧
    cyclicDistance a a T = 0 ∧
    0 ≤ cyclicDistance a b T ∧
    2 * cyclicDistance a b T ≤ T := by
  refine ⟨?_, ?_, ?_, ?_⟩
  · unfold cyclicDistance
    rw [abs_sub_comm a b, show a - b + T = -(b - a - T) by ring, abs_neg,
        show a - b - T = -(b - a + T) by ring, abs_neg, min_right_comm]
  · simp only [cyclicDistance, sub_self, zero_add, zero_sub, abs_neg, abs_zero]
    rw [abs_of_nonneg hT.le]
    omega
  · exact le_min (le_min (abs_nonneg _) (abs_nonneg _)) (abs_nonneg _)
  · unfold cyclicDistance
    rcases le_or_lt b a with h | h
    · rw [abs_of_nonneg (by omega : (0:ℤ) ≤ a - b),
          abs_of_nonneg (by omega : (0:ℤ) ≤ a - b + T),
          abs_of_nonpos (by omega : a - b - T ≤ 0)]
      omega
    · rw [abs_of_nonpos (by omega : a - b ≤ 0),
          abs_of_nonneg (by omega : (0:ℤ) ≤ a - b + T),
          abs_of_nonpos (by omega : a - b - T ≤ 0)]
      omega

theorem c9_cyclic_distance_witness :
    cyclicDistance 2 9 10 = cyclicDistance 9 2 10 ∧
    cyclicDistance 2 2 10 = 0 ∧
    0 ≤ cyclicDistance 2 9 10 ∧
    2 * cyclicDistance 2 9 10 ≤ 10 :=
  c9_cyclic_distance 2 9 10 (by norm_num) (by norm_num) (by norm_num)
    (by norm_num) (by norm_num)

/-! ## Wrap engine lemmas -/

theorem mediaUpdate_x_eq (p : MediaParams) (extra : Extra) (scroll : Vec2)
    (d : Direction) :
    (mediaUpdate p extra scroll d).x =
      specWrapX d.x (positionX p (scaleX p) extra.x scroll.x) (scaleX p / 2)
        (p.viewportWidth / 2) (scaleX p) p.galleryWidth extra.x := by
  rcases d with ⟨dx, dy⟩
  by_cases hbx : positionX p (scaleX p) extra.x scroll.x + scaleX p / 2 <
      -(p.viewportWidth / 2) + scaleX p <;>
  by_cases hax : positionX p (scaleX p) extra.x scroll.x - scaleX p / 2 >
      p.viewportWidth / 2 - scaleX p <;>
  cases dx <;>
  simp [mediaUpdate, specWrapX, hbx, hax]

theorem mediaUpdate_y_eq (p : MediaParams) (extra : Extra) (scroll : Vec2)
    (d : Direction) :
    (mediaUpdate p extra scroll d).y =
      specWrapY d.y (positionY p (scaleY p) extra.y scroll.y) (scaleY p / 2)
        (p.viewportHeight / 2) (scaleY p) p.galleryHeight extra.y := by
  rcases d with ⟨dx, dy⟩
  by_cases hby : positionY p (scaleY p) extra.y scroll.y + scaleY p / 2 <
      -(p.viewportHeight / 2) + scaleY p <;>
  by_cases hay : positionY p (scaleY p) extra.y scroll.y - scaleY p / 2 >
      p.viewportHeight / 2 - scaleY p <;>
  cases dy <;>
  simp [mediaUpdate, specWrapY, hby, hay]

theorem mediaUpdateAlt_x_eq (p : MediaParams) (extra : Extra) (scroll : Vec2)
    (d : Direction) :
    (mediaUpdateAlt p extra scroll d).x =
      specWrapX d.x (positionX p (scaleXAlt p) extra.x scroll.x) (scaleXAlt p / 2)
        (p.viewportWidth / 2) 0 p.galleryWidth extra.x := by
  rcases d with ⟨dx, dy⟩
  by_cases hbx : positionX p (scaleXAlt p) extra.x scroll.x + scaleXAlt p / 2 <
      -(p.viewportWidth / 2) <;>
  by_cases hax : positionX p (scaleXAlt p) extra.x scroll.x - scaleXAlt p / 2 >
      p.viewportWidth / 2 <;>
  cases dx <;>
  simp [mediaUpdateAlt, specWrapX, hbx, hax]

theorem mediaUpdateAlt_y_eq (p : MediaParams) (extra : Extra) (scroll : Vec2)
    (d : Direction) :
    (mediaUpdateAlt p extra scroll d).y =
      specWrapY d.y (positionY p (scaleYAlt p) extra.y scroll.y) (scaleYAlt p / 2)
        (p.viewportHeight / 2) 0 p.galleryHeight extra.y := by
  rcases d with ⟨dx, dy⟩
  by_cases hby : positionY p (scaleYAlt p) extra.y scroll.y + scaleYAlt p / 2 <
      -(p.viewportHeight / 2) <;>
  by_cases hay : positionY p (scaleYAlt p) extra.y scroll.y - scaleYAlt p / 2 >
      p.viewportHeight / 2 <;>
  cases dy <;>
  simp [mediaUpdateAlt, specWrapY, hby, hay]

theorem specWrapX_cases (d : DirX) (pos h v b gp e : ℚ) :
    specWrapX d pos h v b gp e = e ∨ specWrapX d pos h v b gp e = e - gp ∨
      specWrapX d pos h v b gp e = e + gp := by
  simp only [specWrapX]
  split_ifs <;> simp

theorem specWrapY_cases (d : DirY) (pos h v b gp e : ℚ) :
    specWrapY d pos h v b gp e = e ∨ specWrapY d pos h v b gp e = e - gp ∨
      specWrapY d pos h v b gp e = e + gp := by
  simp only [specWrapY]
  split_ifs <;> simp

theorem foldl_media_x (p : MediaParams) (ticks : List (Vec2 × Direction)) (e : Extra)
    (h : ∃ k : ℤ, e.x = k * p.galleryWidth) :
    ∃ k : ℤ, (ticks.foldl (fun e t => mediaUpdate p e t.1 t.2) e).x =
      k * p.galleryWidth := by
  induction ticks generalizing e with
  | nil => exact h
  | cons t ts ih =>
    simp only [List.foldl_cons]
    apply ih
    obtain ⟨k, hk⟩ := h
    have hstep := mediaUpdate_x_eq p e t.1 t.2
    rcases specWrapX_cases t.2.x (positionX p (scaleX p) e.x t.1.x) (scaleX p / 2)
        (p.viewportWidth / 2) (scaleX p) p.galleryWidth e.x with h1 | h1 | h1 <;>
      rw [hstep, h1, hk]
    · exact ⟨k, rfl⟩
    · exact ⟨k - 1, by push_cast; ring⟩
    · exact ⟨k + 1, by push_cast; ring⟩

theorem foldl_media_y (p : MediaParams) (ticks : List (Vec2 × Direction)) (e : Extra)
    (h : ∃ k : ℤ, e.y = k * p.galleryHeight) :
    ∃ k : ℤ, (ticks.foldl (fun e t => mediaUpdate p e t.1 t.2) e).y =
      k * p.galleryHeight := by
  induction ticks generalizing e with
  | nil => exact h
  | cons t ts ih =>
    simp only [List.foldl_cons]
    apply ih
    obtain ⟨k, hk⟩ := h
    have hstep := mediaUpdate_y_eq p e t.1 t.2
    rcases specWrapY_cases t.2.y (positionY p (scaleY p) e.y t.1.y) (scaleY p / 2)
        (p.viewportHeight / 2) (scaleY p) p.galleryHeight e.y with h1 | h1 | h1 <;>
      rw [hstep, h1, hk]
    · exact ⟨k, rfl⟩
    · exact ⟨k - 1, by push_cast; ring⟩
    · exact ⟨k + 1, by push_cast; ring⟩

theorem mediaPositionUpdate_eq (p : MediaParams) (extra : Extra) (scroll : Vec2)
    (d : Direction) :
    mediaPositionUpdate p extra scroll d = mediaUpdate p extra scroll d := by
  rcases d with ⟨dx, dy⟩
  by_cases hbx : positionX p (scaleX p) extra.x scroll.x + scaleX p / 2 <
      -(p.viewportWidth / 2) + scaleX p <;>
  by_cases hax : positionX p (scaleX p) extra.x scroll.x - scaleX p / 2 >
      p.viewportWidth / 2 - scaleX p <;>
  by_cases hby : positionY p (scaleY p) extra.y scroll.y + scaleY p / 2 <
      -(p.viewportHeight / 2) + scaleY p <;>
  by_cases hay : positionY p (scaleY p) extra.y scroll.y - scaleY p / 2 >
      p.viewportHeight / 2 - scaleY p <;>
  cases dx <;> cases dy <;>
  simp [mediaPositionUpdate, handleWrapping, mediaUpdate, hbx, hax, hby, hay]

/-! ## Claim theorems: wrap engine and scroll tracker -/

/-- C1: starting from `extra = (0, 0)` (the state after construction and
after every layout change, which `onResize`/`updateDimensions` resets to
zero), every sequence of `Media.update` calls keeps `extra.x` an integer
multiple of the grid period width and `extra.y` of the grid period
height; a single update changes `extra` on each axis by exactly one grid
period or not at all (hence by at most one grid period); and
`MediaPosition.update`'s wrapping agrees with `Media.update`'s. -/
theorem c1_extra_whole_periods (p : MediaParams) (ticks : List (Vec2 × Direction)) :
    (∃ k : ℤ, (runMediaUpdates p ticks).x = k * p.galleryWidth) ∧
    (∃ k : ℤ, (runMediaUpdates p ticks).y = k * p.galleryHeight) ∧
    (∀ (extra : Extra) (scroll : Vec2) (d : Direction),
      ((mediaUpdate p extra scroll d).x = extra.x ∨
       (mediaUpdate p extra scroll d).x = extra.x - p.galleryWidth ∨
       (mediaUpdate p extra scroll d).x = extra.x + p.galleryWidth) ∧
      ((mediaUpdate p extra scroll d).y = extra.y ∨
       (mediaUpdate p extra scroll d).y = extra.y - p.galleryHeight ∨
       (mediaUpdate p extra scroll d).y = extra.y + p.galleryHeight)) ∧
    (∀ (extra : Extra) (scroll : Vec2) (d : Direction),
      mediaPositionUpdate p extra scroll d = mediaUpdate p extra scroll d) ∧
    (∀ (q : MediaParams) (screen viewport : Vec2) (gw gh : ℚ),
      (updateMediaDimensions q screen viewport gw gh).2 = ⟨0, 0⟩) := by
  refine ⟨?_, ?_, ?_, mediaPositionUpdate_eq p, fun _ _ _ _ _ => rfl⟩
  · exact foldl_media_x p ticks ⟨0, 0⟩ ⟨0, by simp⟩
  · exact foldl_media_y p ticks ⟨0, 0⟩ ⟨0, by simp⟩
  · intro extra scroll d
    constructor
    · rw [mediaUpdate_x_eq]
      exact specWrapX_cases d.x _ _ _ _ _ _
    · rw [mediaUpdate_y_eq]
      exact specWrapY_cases d.y _ _ _ _ _ _

/-- C3 counterexample: on the Media variant embedded in the
PreloadManager.js source file, a tile at render X −500 in a 1000-wide
viewport (inside the one-tile buffer zone, outside the raw viewport
test) does not wrap while the claimed rule — whose buffer equals the
tile's own width — prescribes subtracting one grid period. -/
theorem c3_wrap_rule_counterexample :
    (mediaUpdateAlt altParams ⟨0, 0⟩ ⟨0, 0⟩ ⟨DirX.right, DirY.down⟩).x ≠
      specWrapX DirX.right
        (positionX altParams (scaleXAlt altParams) 0 0)
        (scaleXAlt altParams / 2) (altParams.viewportWidth / 2)
        (scaleXAlt altParams) altParams.galleryWidth 0 ∧
    (mediaUpdateAlt altParams ⟨0, 0⟩ ⟨0, 0⟩ ⟨DirX.right, DirY.down⟩).x = 0 ∧
    specWrapX DirX.right (positionX altParams (scaleXAlt altParams) 0 0)
      (scaleXAlt altParams / 2) (altParams.viewportWidth / 2)
      (scaleXAlt altParams) altParams.galleryWidth 0 = -931 := by
  norm_num [mediaUpdateAlt, specWrapX, positionX, scaleXAlt, scaleYAlt, altParams]

/-- C3 (amended): each tick of `Media.update` (demo-combined/Media.js)
and of `MediaPosition.handleWrapping` follows exactly the claimed rule
with `isBefore = position + halfSize < -viewportHalf + buffer`,
`isAfter = position - halfSize > viewportHalf - buffer` and a buffer
equal to the tile's own width/height on that axis — wrap only with
matching direction, `extra` unchanged otherwise; the Media variant in
the PreloadManager.js source file follows the same rule but with a
buffer of zero. -/
theorem c3_wrap_rule_amended (p : MediaParams) (extra : Extra) (scroll : Vec2)
    (d : Direction) :
    ((mediaUpdate p extra scroll d).x =
      specWrapX d.x (positionX p (scaleX p) extra.x scroll.x) (scaleX p / 2)
        (p.viewportWidth / 2) (scaleX p) p.galleryWidth extra.x) ∧
    ((mediaUpdate p extra scroll d).y =
      specWrapY d.y (positionY p (scaleY p) extra.y scroll.y) (scaleY p / 2)
        (p.viewportHeight / 2) (scaleY p) p.galleryHeight extra.y) ∧
    (mediaPositionUpdate p extra scroll d = mediaUpdate p extra scroll d) ∧
    ((mediaUpdateAlt p extra scroll d).x =
      specWrapX d.x (positionX p (scaleXAlt p) extra.x scroll.x) (scaleXAlt p / 2)
        (p.viewportWidth / 2) 0 p.galleryWidth extra.x) ∧
    ((mediaUpdateAlt p extra scroll d).y =
      specWrapY d.y (positionY p (scaleYAlt p) extra.y scroll.y) (scaleYAlt p / 2)
        (p.viewportHeight / 2) 0 p.galleryHeight extra.y) :=
  ⟨mediaUpdate_x_eq p extra scroll d, mediaUpdate_y_eq p extra scroll d,
   mediaPositionUpdate_eq p extra scroll d,
   mediaUpdateAlt_x_eq p extra scroll d, mediaUpdateAlt_y_eq p extra scroll d⟩

/-- C7 counterexample: a scroll tick with no movement on either axis
(current already equal to target) does not keep the previous direction
`right`/`down` — the strict `>` comparison sends both axes to the
else branch `left`/`up`. -/
theorem c7_tie_counterexample :
    (scrollUpdate tieScroll).current = (scrollUpdate tieScroll).last ∧
    (scrollUpdate tieScroll).direction.x ≠ tieScroll.direction.x ∧
    (scrollUpdate tieScroll).direction.y ≠ tieScroll.direction.y := by
  refine ⟨?_, ?_, ?_⟩
  · norm_num [scrollUpdate, lerp, tieScroll, SCROLL_EASE]
  · norm_num [scrollUpdate, lerp, tieScroll, SCROLL_EASE]
    decide
  · norm_num [scrollUpdate, lerp, tieScroll, SCROLL_EASE]
    decide

/-- C7 (amended): each tick derives the direction by the strict
comparison `current > last` (with `last` being the pre-tick current),
`right`/`down` when strictly greater and `left`/`up` otherwise — so a
tick with no movement on an axis does not keep that axis's previous
direction but resets it to `left`/`up`. -/
theorem c7_direction_amended (s : ScrollState) :
    ((scrollUpdate s).direction.x =
      if lerp s.current.x s.target.x s.ease > s.current.x then DirX.right
      else DirX.left) ∧
    ((scrollUpdate s).direction.y =
      if lerp s.current.y s.target.y s.ease > s.current.y then DirY.down
      else DirY.up) ∧
    ((scrollUpdate s).last = s.current) ∧
    (lerp s.current.x s.target.x s.ease = s.current.x →
      (scrollUpdate s).direction.x = DirX.left) ∧
    (lerp s.current.y s.target.y s.ease = s.current.y →
      (scrollUpdate s).direction.y = DirY.up) := by
  refine ⟨rfl, rfl, rfl, ?_, ?_⟩
  · intro h
    simp [scrollUpdate, h]
  · intro h
    simp [scrollUpdate, h]

theorem c7_direction_amended_witness :
    (scrollUpdate tieScroll).direction.x = DirX.left ∧
    (scrollUpdate tieScroll).direction.y = DirY.up :=
  ⟨(c7_direction_amended tieScroll).2.2.2.1
      (by norm_num [lerp, tieScroll, SCROLL_EASE]),
   (c7_direction_amended tieScroll).2.2.2.2
      (by norm_num [lerp, tieScroll, SCROLL_EASE])⟩
